import Mathlib

/-!
Shallow embedding of the `ics12-near` NEAR light client (the
`crates/ics12-near` copy, which the repository treats as authoritative).

Machine integers are modelled as `Nat` (the operations proved about never
overflow their Rust types on the inputs considered, and the claims are about
comparisons and control flow, not wrap-around). Byte strings are `List Nat`.
Fallible Rust functions returning `Result` are embedded as `Except`;
Rust code that can panic (`todo!()`) is embedded with the `Outcome` type,
which has an explicit `panicked` constructor.
-/

namespace Near

/-- CryptoHash from `types/src/v1/near_types/hash.rs`: a 32-byte value whose
equality is byte equality. -/
structure CryptoHash where
  data : List Nat
deriving DecidableEq

/-- PublicKey from `types/src/v1/near_types/signature.rs` (single ED25519
variant carrying the raw key bytes). -/
inductive PublicKey where
  | ED25519 : List Nat → PublicKey
deriving DecidableEq

/-- Signature from `types/src/v1/near_types/signature.rs` (single ED25519
variant carrying the raw signature bytes). -/
inductive Signature where
  | ED25519 : List Nat → Signature
deriving DecidableEq

/-- Modelled from the spec: `ValidatorStake` / `ValidatorStakeView`
(`{ account_id : string, public_key : Ed25519PublicKey, stake : u128 }`).
The `near_types` module defining this type is not present under `src/`;
only its fields are given by the spec's data model. -/
structure ValidatorStakeView where
  account_id : List Nat
  public_key : PublicKey
  stake : Nat
deriving DecidableEq

/-- Modelled from the spec: `LightClientBlockInnerLite`
(`height, epoch_id, next_epoch_id, prev_state_root, outcome_root,
timestamp (ns), next_bp_hash, block_merkle_root`). The defining
`near_types` module is not present under `src/`. -/
structure BlockHeaderInnerLiteView where
  height : Nat
  epoch_id : CryptoHash
  next_epoch_id : CryptoHash
  prev_state_root : CryptoHash
  outcome_root : CryptoHash
  timestamp : Nat
  next_bp_hash : CryptoHash
  block_merkle_root : CryptoHash
deriving DecidableEq

/-- Modelled from the spec: `LightClientBlock`
(`prev_block_hash, next_block_inner_hash, inner_lite, inner_rest_hash,
next_bps : Option<Vec<ValidatorStake>>,
approvals_after_next : Vec<Option<Signature>>`). The defining
`near_types` module is not present under `src/`. -/
structure LightClientBlock where
  prev_block_hash : CryptoHash
  next_block_inner_hash : CryptoHash
  inner_lite : BlockHeaderInnerLiteView
  inner_rest_hash : CryptoHash
  next_bps : Option (List ValidatorStakeView)
  approvals_after_next : List (Option Signature)
deriving DecidableEq

/-- Header from `types/src/v1/header.rs`. -/
structure Header where
  light_client_block : LightClientBlock
  prev_state_root_of_chunks : List CryptoHash
deriving DecidableEq

/-- Height from `ibc-core` (`{ revision_number : u64, revision_height : u64 }`),
the host library type used by the client; ordered lexicographically. -/
structure Height where
  revision_number : Nat
  revision_height : Nat
deriving DecidableEq

/-- Lexicographic strict order on `Height` (as in `ibc-core`). -/
def Height.lt (a b : Height) : Prop :=
  a.revision_number < b.revision_number ∨
    (a.revision_number = b.revision_number ∧ a.revision_height < b.revision_height)

/-- Lexicographic order on `Height` (as in `ibc-core`). -/
def Height.le (a b : Height) : Prop :=
  a.revision_number < b.revision_number ∨
    (a.revision_number = b.revision_number ∧ a.revision_height ≤ b.revision_height)

instance (a b : Height) : Decidable (Height.lt a b) := by
  unfold Height.lt; infer_instance

instance (a b : Height) : Decidable (Height.le a b) := by
  unfold Height.le; infer_instance

/-- Rust `core::cmp::max(a, b)` on heights (returns `b` on ties, which is
irrelevant up to equality of values). -/
def Height.maxH (a b : Height) : Height :=
  if Height.le a b then b else a

/-- Modelled from the spec: `Height::min(revision_number)` of `ibc-core`, the
smallest valid height of a revision; `Some(Height::min(0))` is the spec's
"frozen sentinel" (`frozen_height = Height::min(0)`, spec section 9). -/
def Height.minH (revision_number : Nat) : Height :=
  ⟨revision_number, 1⟩

/-- Header::height from `types/src/v1/header.rs`:
`Height::new(0, self.light_client_block.inner_lite.height)`. -/
def Header.height (h : Header) : Height :=
  ⟨0, h.light_client_block.inner_lite.height⟩

/-- Header::epoch_id from `types/src/v1/header.rs`. -/
def Header.epoch_id (h : Header) : CryptoHash :=
  h.light_client_block.inner_lite.epoch_id

/-- Header::next_epoch_id from `types/src/v1/header.rs`. -/
def Header.next_epoch_id (h : Header) : CryptoHash :=
  h.light_client_block.inner_lite.next_epoch_id

/-- Header::raw_timestamp from `types/src/v1/header.rs` (nanoseconds); the
`Timestamp` returned by `Header::timestamp()` compares by this value. -/
def Header.raw_timestamp (h : Header) : Nat :=
  h.light_client_block.inner_lite.timestamp

/-- Error type: the union of the `ics12-near` error variants
(`types/src/v1/error.rs`) and the `ibc-core` `ClientError` /
`CommitmentError` variants reachable from the embedded operations. -/
inductive Error where
  | missingTrustingPeriod
  | missingLatestHeight
  | frozenHeightNotAllowed
  | missingHeader
  | borshDeserializeError
  | commitmentProofDecodingFailed
  | emptyMerkleProof
  | verificationFailure
  | other (description : String)
deriving DecidableEq

/-- Misbehaviour from `types/src/v1/misbehaviour.rs` (the `client_id` is an
opaque identifier string, irrelevant to the checks). -/
structure Misbehaviour where
  client_id : String
  header1 : Header
  header2 : Header
deriving DecidableEq

/-- ClientState::check_for_misbehaviour_misbehaviour from
`src/v1/client_state/misbehaviour.rs` (crates copy). The
`current_block_hash` function lives in the `near_types` module absent from
`src/`; it is taken as a parameter (an opaque deterministic function of the
block, exactly how the spec treats such functions). -/
def check_for_misbehaviour_misbehaviour
    (current_block_hash : LightClientBlock → CryptoHash)
    (misbehaviour : Misbehaviour) : Except Error Bool :=
  let header_1 := misbehaviour.header1
  let header_2 := misbehaviour.header2
  if header_1.height = header_2.height then
    .ok (decide (current_block_hash header_1.light_client_block
      ≠ current_block_hash header_2.light_client_block))
  else
    .ok (decide (header_1.raw_timestamp ≤ header_2.raw_timestamp))

/-- Rust `core::time::Duration` (seconds plus nanoseconds, `nanos < 10^9`
when normalized); used for the client's trusting period. -/
structure Duration where
  secs : Nat
  nanos : Nat
deriving DecidableEq

/-- Total nanoseconds of a duration; normalized `Duration`s compare
(lexicographically on `(secs, nanos)`) exactly as their nanosecond totals. -/
def Duration.toNanos (d : Duration) : Nat :=
  d.secs * 1000000000 + d.nanos

/-- ClientState from `types/src/v1/client_state.rs`. The two upgrade fields
are named `upgrade_commitment_prefix` and `upgrade_key` in the source
(shortened here to `upgrade_commitment_pfx` for tooling reasons only). -/
structure ClientState where
  trusting_period : Duration
  frozen_height : Option Height
  latest_height : Height
  latest_timestamp : Nat
  upgrade_commitment_pfx : List Nat
  upgrade_key : List Nat
deriving DecidableEq

/-- ClientState::new_without_validation from `types/src/v1/client_state.rs`. -/
def ClientState.new_without_validation
    (trusting_period : Duration) (latest_height : Height)
    (latest_timestamp : Nat) : ClientState :=
  { trusting_period := trusting_period
    frozen_height := none
    latest_height := latest_height
    latest_timestamp := latest_timestamp
    upgrade_commitment_pfx := []
    upgrade_key := [] }

/-- ClientState::with_header from `types/src/v1/client_state.rs`
(`latest_height := max(header.height(), self.latest_height)`; the Rust
function returns `Result` but is always `Ok`). -/
def ClientState.with_header (s : ClientState) (header : Header) : ClientState :=
  { s with latest_height := Height.maxH header.height s.latest_height }

/-- ClientState::with_timestamp from `types/src/v1/client_state.rs`. -/
def ClientState.with_timestamp (s : ClientState) (timestamp : Nat) : ClientState :=
  { s with latest_timestamp := timestamp }

/-- ClientState::with_frozen_height from `types/src/v1/client_state.rs`. -/
def ClientState.with_frozen_height (s : ClientState) (h : Height) : ClientState :=
  { s with frozen_height := some h }

/-- ClientState::is_frozen from `types/src/v1/client_state.rs`. -/
def ClientState.is_frozen (s : ClientState) : Bool :=
  s.frozen_height.isSome

/-- Little-endian borsh encoding of a `u32` (4 bytes). -/
def u32LE (n : Nat) : List Nat :=
  [n % 256, n / 256 % 256, n / 256 ^ 2 % 256, n / 256 ^ 3 % 256]

/-- Borsh encoding of a vector: `u32` length prefix followed by the
encodings of the elements. -/
def borshVec (enc : α → List Nat) (l : List α) : List Nat :=
  u32LE l.length ++ (l.map enc).flatten

/-- Borsh encoding of a `CryptoHash`: its 32 raw bytes
(derived `BorshSerialize` in `types/src/v1/near_types/hash.rs`). -/
def CryptoHash.borsh (h : CryptoHash) : List Nat :=
  h.data

/-- ConsensusState from `types/src/v1/consensus_state.rs`. The
`commitment_root` is raw commitment bytes (`CommitmentRoot`). -/
structure ConsensusState where
  current_bps : Option (List ValidatorStakeView)
  header : Header
  commitment_root : List Nat
deriving DecidableEq

/-- ConsensusState::new from `types/src/v1/consensus_state.rs`: the
commitment root is the borsh encoding of the header's
`prev_state_root_of_chunks`. -/
def ConsensusState.new (current_bps : Option (List ValidatorStakeView))
    (header : Header) : ConsensusState :=
  { current_bps := current_bps
    header := header
    commitment_root := borshVec CryptoHash.borsh header.prev_state_root_of_chunks }

/-- ConsensusState::get_block_producers_of from
`types/src/v1/consensus_state.rs`. -/
def ConsensusState.get_block_producers_of (cs : ConsensusState)
    (epoch_id : CryptoHash) : Option (List ValidatorStakeView) :=
  if epoch_id = cs.header.epoch_id then
    cs.current_bps
  else if epoch_id = cs.header.next_epoch_id then
    cs.header.light_client_block.next_bps
  else
    none

/-- Protobuf `google.protobuf.Duration` (`prost_types::Duration`): signed
seconds and nanoseconds. -/
structure RawDuration where
  seconds : Int
  nanos : Int
deriving DecidableEq

/-- Conversion `prost Duration -> core Duration` used by
`TryFrom<RawClientState>`; fails on negative components. -/
def RawDuration.tryIntoDuration (d : RawDuration) : Option Duration :=
  if d.seconds < 0 ∨ d.nanos < 0 then none
  else some ⟨d.seconds.toNat, d.nanos.toNat⟩

/-- Conversion `core Duration -> prost Duration` used by
`From<ClientState> for RawClientState`. -/
def Duration.intoRaw (d : Duration) : RawDuration :=
  ⟨(d.secs : Int), (d.nanos : Int)⟩

/-- Protobuf height (`ibc.core.client.v1.Height`). -/
structure RawHeight where
  revision_number : Nat
  revision_height : Nat
deriving DecidableEq

/-- `Height::try_from(RawHeight)` of `ibc-core`: fails exactly when
`revision_height == 0` (the source comment at
`types/src/v1/client_state.rs` lines 96-98 relies on this: a raw
`frozen_height` of height `0` means "not frozen"). -/
def RawHeight.tryIntoHeight (h : RawHeight) : Option Height :=
  if h.revision_height = 0 then none
  else some ⟨h.revision_number, h.revision_height⟩

/-- `From<Height> for RawHeight` of `ibc-core`. -/
def Height.intoRaw (h : Height) : RawHeight :=
  ⟨h.revision_number, h.revision_height⟩

/-- RawClientState (`ics12_proto::v1::ClientState`), the protobuf form of the
client state; field `upgrade_commitment_prefix` shortened to
`upgrade_commitment_pfx` as in `ClientState`. -/
structure RawClientState where
  trusting_period : Option RawDuration
  frozen_height : Option RawHeight
  latest_height : Option RawHeight
  latest_timestamp : Nat
  upgrade_commitment_pfx : List Nat
  upgrade_key : List Nat
deriving DecidableEq

/-- `TryFrom<RawClientState> for ClientState` from
`types/src/v1/client_state.rs` lines 80-115. Note that the result is built
with `new_without_validation`, which sets `frozen_height := None` and the
two upgrade fields to empty. -/
def clientStateTryFromRaw (value : RawClientState) : Except Error ClientState :=
  match value.trusting_period.bind RawDuration.tryIntoDuration with
  | none => .error .missingTrustingPeriod
  | some trusting_period =>
    match value.latest_height.bind RawHeight.tryIntoHeight with
    | none => .error .missingLatestHeight
    | some latest_height =>
      if (value.frozen_height.bind RawHeight.tryIntoHeight).isSome then
        .error .frozenHeightNotAllowed
      else
        .ok (ClientState.new_without_validation trusting_period latest_height
          value.latest_timestamp)

/-- `From<ClientState> for RawClientState` from
`types/src/v1/client_state.rs` lines 117-128. -/
def clientStateIntoRaw (value : ClientState) : RawClientState :=
  { trusting_period := some value.trusting_period.intoRaw
    frozen_height := value.frozen_height.map Height.intoRaw
    latest_height := some value.latest_height.intoRaw
    latest_timestamp := value.latest_timestamp
    upgrade_commitment_pfx := value.upgrade_commitment_pfx
    upgrade_key := value.upgrade_key }

/-- Outcome of running fallible Rust code that may also panic: `todo!()` in
the source is embedded as `panicked`. -/
inductive Outcome (α : Type) where
  | ok : α → Outcome α
  | err : Error → Outcome α
  | panicked : Outcome α
deriving DecidableEq

/-- Read `n` bytes off the front of a byte list. -/
def readBytes : Nat → List Nat → Option (List Nat × List Nat)
  | 0, rest => some ([], rest)
  | _ + 1, [] => none
  | n + 1, b :: rest =>
    match readBytes n rest with
    | none => none
    | some (taken, rest) => some (b :: taken, rest)

/-- Read a little-endian borsh `u32` off the front of a byte list. -/
def readU32LE (bytes : List Nat) : Option (Nat × List Nat) :=
  match bytes with
  | b0 :: b1 :: b2 :: b3 :: rest =>
    some (b0 + b1 * 256 + b2 * 256 ^ 2 + b3 * 256 ^ 3, rest)
  | _ => none

/-- Modelled from the spec: `ValidatorStakeView::try_from_slice`. The
`near_types` struct definition is absent from `src/`; borsh decoding reads
`account_id` (a borsh string: `u32` length then bytes) and then the
`public_key` through the `BorshDeserialize for PublicKey` impl of
`types/src/v1/near_types/signature.rs` lines 80-92, which is `todo!()` and
therefore panics whenever reached. -/
def ValidatorStakeView.try_from_slice (bytes : List Nat) :
    Outcome ValidatorStakeView :=
  match readU32LE bytes with
  | none => .err .borshDeserializeError
  | some (n, rest) =>
    match readBytes n rest with
    | none => .err .borshDeserializeError
    | some _ => .panicked

/-- RawValidatorStakeView (`ics12_proto::v1::ValidatorStakeView`): borsh
bytes carried over protobuf. -/
structure RawValidatorStakeView where
  raw_data : List Nat
deriving DecidableEq

/-- RawHeader (`ics12_proto::v1::Header`): the borsh bytes of the light
client block plus the chunk state roots, each as raw borsh bytes. -/
structure RawHeader where
  light_client_block : List Nat
  prev_state_root_of_chunks : List (List Nat)
deriving DecidableEq

/-- RawConsensusState (`ics12_proto::v1::ConsensusState`). -/
structure RawConsensusState where
  current_bps : List RawValidatorStakeView
  header : Option RawHeader
deriving DecidableEq

/-- The `current_bps` decoding loop of `TryFrom<RawConsensusState>`
(`types/src/v1/consensus_state.rs` lines 64-71): each entry through
`ValidatorStakeView::try_from_slice`, errors mapped to
`BorshDeserializeError`, a panic propagating. -/
def decodeBpsList : List RawValidatorStakeView → Outcome (List ValidatorStakeView)
  | [] => .ok []
  | v :: rest =>
    match ValidatorStakeView.try_from_slice v.raw_data with
    | .panicked => .panicked
    | .err _ => .err .borshDeserializeError
    | .ok x =>
      match decodeBpsList rest with
      | .panicked => .panicked
      | .err e => .err e
      | .ok xs => .ok (x :: xs)

/-- `TryFrom<RawConsensusState> for ConsensusState` from
`types/src/v1/consensus_state.rs` lines 60-79, with the header conversion
(`TryFrom<RawHeader> for Header`) taken as a parameter. An empty decoded
`bps` list becomes `current_bps = None`. -/
def consensusStateTryFromRaw (headerFromRaw : RawHeader → Outcome Header)
    (value : RawConsensusState) : Outcome ConsensusState :=
  match decodeBpsList value.current_bps with
  | .panicked => .panicked
  | .err e => .err e
  | .ok bps =>
    let current_bps := match bps.length with
      | 0 => none
      | _ + 1 => some bps
    match value.header with
    | none => .err .missingHeader
    | some rh =>
      match headerFromRaw rh with
      | .panicked => .panicked
      | .err e => .err e
      | .ok header => .ok (ConsensusState.new current_bps header)

/-- combine_hash from `types/src/v1/near_types/hash.rs`:
`sha256(h1 || h2)`. The sha256 function itself is a parameter throughout
(an opaque function of the bytes). -/
def combineHash (sha256f : List Nat → CryptoHash) (h1 h2 : CryptoHash) :
    CryptoHash :=
  sha256f (h1.data ++ h2.data)

/-- One pairing round of NEAR-style merklization: adjacent elements combine,
an odd trailing element promotes unchanged. -/
def pairUp (sha256f : List Nat → CryptoHash) :
    List CryptoHash → List CryptoHash
  | a :: b :: rest => combineHash sha256f a b :: pairUp sha256f rest
  | l => l

theorem pairUp_length (sha256f : List Nat → CryptoHash) :
    ∀ l : List CryptoHash, (pairUp sha256f l).length = (l.length + 1) / 2
  | [] => by simp [pairUp]
  | [_] => by simp [pairUp]
  | _ :: _ :: rest => by
    simp only [pairUp, List.length_cons, pairUp_length sha256f rest]
    omega

/-- Repeated pairing until at most one element remains. Structural
recursion on a fuel argument (each round at least halves a list of length
at least 2, so fuel equal to the initial length always suffices). -/
def merklizeLoop (sha256f : List Nat → CryptoHash) :
    Nat → List CryptoHash → List CryptoHash
  | 0, l => l
  | fuel + 1, l =>
    if l.length ≤ 1 then l
    else merklizeLoop sha256f fuel (pairUp sha256f l)

/-- Modelled from the spec: `merklize(leaves)` (section 4.A) — NEAR-style
in-place pairing, odd elements promote unchanged, empty input is an error.
The `near_types/merkle.rs` module is absent from `src/`. -/
def merklize (sha256f : List Nat → CryptoHash) (leaves : List CryptoHash) :
    Option CryptoHash :=
  match merklizeLoop sha256f leaves.length leaves with
  | [x] => some x
  | _ => none

/-- Little-endian borsh encoding of a `u128` (16 bytes). -/
def u128LE (n : Nat) : List Nat :=
  (List.range 16).map (fun i => n / 256 ^ i % 256)

/-- `BorshSerialize for PublicKey` from
`types/src/v1/near_types/signature.rs` lines 68-78: tag byte `0` then the
raw key bytes. -/
def PublicKey.borsh : PublicKey → List Nat
  | .ED25519 key => 0 :: key

/-- Modelled from the spec: borsh encoding of a `ValidatorStake`
(`account_id` as a borsh string, then `public_key`, then `stake : u128`);
the defining `near_types` module is absent from `src/`. -/
def ValidatorStakeView.borsh (v : ValidatorStakeView) : List Nat :=
  u32LE v.account_id.length ++ v.account_id ++ v.public_key.borsh
    ++ u128LE v.stake

/-- Borsh encoding of the slice of next block producers hashed by
`verify_header` (`to_vec(&next_bps.as_deref())`). -/
def borshVsvSlice (l : List ValidatorStakeView) : List Nat :=
  borshVec ValidatorStakeView.borsh l

/-- Modelled from the spec: `into_validator_stake` on a block producer entry
yields its `{ account_id, public_key, stake }` view; with the single
modelled validator-stake type it is the identity (the defining `near_types`
module is absent from `src/`). -/
def ValidatorStakeView.into_validator_stake (v : ValidatorStakeView) :
    ValidatorStakeView :=
  v

/-- The signature-aggregation loop of `ClientState::verify_header`
(`src/v1/client_state/update_client.rs` lines 70-115, crates copy): over the
zip of `approvals_after_next` with the epoch block producers, every entry
adds its stake to `total_stake`; a present approval must carry a valid
signature on the approval message (otherwise a fatal error) and adds its
stake to `approved_stake`. Returns the final `(total_stake, approved_stake)`.
Ed25519 verification is a parameter. -/
def aggregateStakes (verifySig : Signature → List Nat → PublicKey → Bool)
    (approval_message : List Nat) :
    List (Option Signature × ValidatorStakeView) → Nat → Nat →
      Except Error (Nat × Nat)
  | [], total_stake, approved_stake => .ok (total_stake, approved_stake)
  | (maybe_signature, block_producer) :: rest, total_stake, approved_stake =>
    let bp_stake_view := block_producer.into_validator_stake
    let bp_stake := bp_stake_view.stake
    let total_stake := total_stake + bp_stake
    match maybe_signature with
    | none => aggregateStakes verifySig approval_message rest total_stake approved_stake
    | some signature =>
      let approved_stake := approved_stake + bp_stake
      if verifySig signature approval_message bp_stake_view.public_key then
        aggregateStakes verifySig approval_message rest total_stake approved_stake
      else
        .error (.other "Invalid signature in header.")

/-- ClientState::verify_header from
`src/v1/client_state/update_client.rs` lines 14-153 (crates copy), taken
after the host-context lookup of the latest consensus state (the looked-up
state is the `latest_consensus_state` argument). The ed25519 verifier, the
sha256 function and the NEAR approval-message encoding (an opaque function
of the light client block, per the spec) are parameters. -/
def verify_header (verifySig : Signature → List Nat → PublicKey → Bool)
    (sha256f : List Nat → CryptoHash)
    (approvalMessage : LightClientBlock → List Nat)
    (latest_consensus_state : ConsensusState) (header : Header) :
    Except Error Unit :=
  let latest_header := latest_consensus_state.header
  let approval_message := approvalMessage header.light_client_block
  if Height.le header.height latest_header.height then
    .error (.other "Header is too old.")
  else if header.epoch_id ≠ latest_header.epoch_id
      ∧ header.epoch_id ≠ latest_header.next_epoch_id then
    .error (.other "Invalid epoch id in header.")
  else if header.epoch_id = latest_header.next_epoch_id
      ∧ header.light_client_block.next_bps = none then
    .error (.other "Missing next block producers in header.")
  else
    match latest_consensus_state.get_block_producers_of header.epoch_id with
    | none => .error (.other "Missing epoch block producers.")
    | some epoch_block_producers =>
      match aggregateStakes verifySig approval_message
          (header.light_client_block.approvals_after_next.zip
            epoch_block_producers) 0 0 with
      | .error e => .error e
      | .ok (total_stake, approved_stake) =>
        if approved_stake * 3 ≤ total_stake * 2 then
          .error (.other "Insufficient approved stake in header.")
        else
          let next_bp_check : Except Error Unit :=
            match header.light_client_block.next_bps with
            | some bps_list =>
              if sha256f (borshVsvSlice bps_list)
                  ≠ header.light_client_block.inner_lite.next_bp_hash then
                .error (.other "Invalid hash of next block producers.")
              else .ok ()
            | none => .ok ()
          match next_bp_check with
          | .error e => .error e
          | .ok _ =>
            match merklize sha256f header.prev_state_root_of_chunks with
            | some root =>
              if header.light_client_block.inner_lite.prev_state_root ≠ root then
                .error (.other "Invalid merkle root of previous state root of chunks.")
              else .ok ()
            | none =>
              .error (.other "Invalid merkle root of previous state root of chunks.")

/-- Client status (`ibc-core` `Status`). -/
inductive Status where
  | Active
  | Frozen
  | Expired
deriving DecidableEq

/-- Update kind of a submitted client message (`ibc-core` `UpdateKind`). -/
inductive UpdateKind where
  | UpdateClient
  | SubmitMisbehaviour
deriving DecidableEq

/-- An opaque submitted message (`google.protobuf.Any`): type url plus
bytes. Only its presence matters to the operations embedded here. -/
structure AnyMsg where
  type_url : String
  value : List Nat
deriving DecidableEq

/-- The host store for one client, as exposed through the
`ValidationContext` / `ExecutionContext` abstraction: the client state, the
consensus states keyed by height, and the update-time / update-height
metadata records. -/
structure Store where
  clientState : ClientState
  consensus : List (Height × ConsensusState)
  updateTimes : List (Height × Nat)
  updateHeights : List (Height × Height)
deriving DecidableEq

/-- `ctx.consensus_state(ClientConsensusStatePath(client, h))`: lookup of
the consensus state stored at height `h`. -/
def lookupCs (st : Store) (h : Height) : Option ConsensusState :=
  (st.consensus.find? (fun p => decide (p.1 = h))).map Prod.snd

/-- `ctx.prev_consensus_state(client_id, h)`: the stored consensus state of
greatest height strictly below `h` (spec section 6). -/
def prevEntry (entries : List (Height × ConsensusState)) (h : Height) :
    Option (Height × ConsensusState) :=
  entries.foldl
    (fun acc p =>
      if Height.lt p.1 h then
        match acc with
        | none => some p
        | some q => if Height.lt q.1 p.1 then some p else some q
      else acc)
    none

/-- `Timestamp::duration_since` of `ibc-core` on nanosecond timestamps:
`Some(now - ts)` when `now ≥ ts`, `None` when the other timestamp lies in
the future. -/
def durationSince (now ts : Nat) : Option Nat :=
  if ts ≤ now then some (now - ts) else none

/-- ClientState::status from `src/v1/client_state.rs` lines 305-339 (crates
copy): Frozen when the frozen height is set; Expired when the consensus
state at the latest height is missing; Expired when the elapsed time since
the latest consensus state exceeds the trusting period (only when the host
clock is not behind that state's timestamp); otherwise Active. -/
def status (st : Store) (now : Nat) : Except Error Status :=
  if st.clientState.is_frozen then
    .ok .Frozen
  else
    match lookupCs st st.clientState.latest_height with
    | none => .ok .Expired
    | some latest_consensus_state =>
      match durationSince now latest_consensus_state.header.raw_timestamp with
      | some elapsed =>
        if elapsed > st.clientState.trusting_period.toNanos then
          .ok .Expired
        else
          .ok .Active
      | none => .ok .Active

/-- ClientState::update_state from `src/v1/client_state.rs` lines 374-452
(crates copy). If a consensus state already exists at the header's height
the call is a no-op; otherwise a new consensus state is built (its
`current_bps` derived from the previous-by-height state's view of the
header's epoch), the client state advances via `with_header` /
`with_timestamp`, and the four store writes happen. Returns the updated
store and the reported updated-heights list. -/
def update_state (st : Store) (hostTime : Nat) (hostHeight : Height)
    (header : Header) : Except Error (Store × List Height) :=
  let header_height := header.height
  match lookupCs st header_height with
  | some _ => .ok (st, [header_height])
  | none =>
    let new_consensus_state :=
      match prevEntry st.consensus header_height with
      | some prev =>
        ConsensusState.new (prev.2.get_block_producers_of header.epoch_id) header
      | none => ConsensusState.new none header
    let new_client_state :=
      (st.clientState.with_header header).with_timestamp
        new_consensus_state.header.raw_timestamp
    .ok
      ({ st with
          updateTimes := (new_client_state.latest_height, hostTime) :: st.updateTimes
          updateHeights := (new_client_state.latest_height, hostHeight) :: st.updateHeights
          consensus := (new_client_state.latest_height, new_consensus_state) :: st.consensus
          clientState := new_client_state },
        [header_height])

/-- ClientState::update_state_on_misbehaviour from
`src/v1/client_state.rs` lines 454-470 (crates copy): unconditionally store
the client state frozen at `Height::min(0)`, ignoring the message and the
update kind. -/
def update_state_on_misbehaviour (st : Store) (_clientMessage : AnyMsg)
    (_updateKind : UpdateKind) : Store :=
  let frozen_client_state := st.clientState.with_frozen_height (Height.minH 0)
  { st with clientState := frozen_client_state }

/-- ClientState::verify_header including its host-context lookup of the
consensus state stored at the client's latest height
(`src/v1/client_state/update_client.rs` lines 23-35, crates copy). -/
def verify_header_ctx (verifySig : Signature → List Nat → PublicKey → Bool)
    (sha256f : List Nat → CryptoHash)
    (approvalMessage : LightClientBlock → List Nat)
    (st : Store) (header : Header) : Except Error Unit :=
  match lookupCs st st.clientState.latest_height with
  | none => .error (.other "missing consensus state at latest height")
  | some latest_consensus_state =>
    verify_header verifySig sha256f approvalMessage latest_consensus_state header

/-- ClientState::verify_misbehaviour from
`src/v1/client_state/misbehaviour.rs` lines 11-22 (crates copy): full
header verification of `header1`, then of `header2`. -/
def verify_misbehaviour (verifySig : Signature → List Nat → PublicKey → Bool)
    (sha256f : List Nat → CryptoHash)
    (approvalMessage : LightClientBlock → List Nat)
    (st : Store) (misbehaviour : Misbehaviour) : Except Error Unit :=
  match verify_header_ctx verifySig sha256f approvalMessage st
      misbehaviour.header1 with
  | .error e => .error e
  | .ok _ =>
    verify_header_ctx verifySig sha256f approvalMessage st misbehaviour.header2

/-- Read a borsh `Vec<u8>` element (`u32` length then bytes) off the front
of a byte list. -/
def readVecU8 (bytes : List Nat) : Option (List Nat × List Nat) :=
  match readU32LE bytes with
  | none => none
  | some (n, rest) => readBytes n rest

/-- Read a borsh `CryptoHash` (32 raw bytes) off the front of a byte
list. -/
def readCryptoHash (bytes : List Nat) : Option (CryptoHash × List Nat) :=
  match readBytes 32 bytes with
  | none => none
  | some (taken, rest) => some (⟨taken⟩, rest)

/-- Read `n` consecutive borsh elements. -/
def readElems (dec : List Nat → Option (α × List Nat)) :
    Nat → List Nat → Option (List α × List Nat)
  | 0, rest => some ([], rest)
  | n + 1, bytes =>
    match dec bytes with
    | none => none
    | some (x, rest) =>
      match readElems dec n rest with
      | none => none
      | some (xs, rest) => some (x :: xs, rest)

/-- Borsh `try_from_slice` of a `Vec`: `u32` count, that many elements, and
the whole slice must be consumed. -/
def tryFromSliceVec (dec : List Nat → Option (α × List Nat))
    (bytes : List Nat) : Option (List α) :=
  match readU32LE bytes with
  | none => none
  | some (n, rest) =>
    match readElems dec n rest with
    | none => none
    | some (xs, rest) => if rest = [] then some xs else none

/-- The node-decoding loop of `verify_membership` /
`verify_non_membership`: each proof entry through
`RawTrieNodeWithSize::decode` (a parameter; the trie module is absent from
`src/`), failing as a whole when any entry fails. -/
def decodeAllNodes {Node : Type} (decodeNode : List Nat → Option Node) :
    List (List Nat) → Option (List Node)
  | [] => some []
  | p :: rest =>
    match decodeNode p with
    | none => none
    | some node =>
      match decodeAllNodes decodeNode rest with
      | none => none
      | some nodes => some (node :: nodes)

/-- ClientState::verify_membership from `src/v1/client_state.rs` lines
153-205 (crates copy). The proof bytes borsh-decode to a `Vec<Vec<u8>>`
(must be non-empty); the commitment root bytes borsh-decode to the
`Vec<CryptoHash>` of chunk state roots, which must contain the sha256 of
the first proof node's bytes; then the nodes decode and the trie walk
(`verify_state_proof`, a parameter since the trie module is absent from
`src/`) runs over `prefix ++ path` bytes. -/
def verify_membership {Node : Type}
    (sha256f : List Nat → CryptoHash)
    (decodeNode : List Nat → Option Node)
    (verifyStateProof : List Nat → List Node → List Nat → CryptoHash →
      Except String Unit)
    (pfx pathBytes : List Nat)
    (proofBytes rootBytes : List Nat)
    (value : List Nat) : Except Error Unit :=
  match tryFromSliceVec readVecU8 proofBytes with
  | none => .error .commitmentProofDecodingFailed
  | some proofs =>
    match proofs with
    | [] => .error .emptyMerkleProof
    | p0 :: _ =>
      let root_hash := sha256f p0
      match tryFromSliceVec readCryptoHash rootBytes with
      | none => .error .commitmentProofDecodingFailed
      | some prev_state_root_of_chunks =>
        if root_hash ∉ prev_state_root_of_chunks then
          .error .verificationFailure
        else
          match decodeAllNodes decodeNode proofs with
          | none => .error .commitmentProofDecodingFailed
          | some nodes =>
            let key := pfx ++ pathBytes
            match verifyStateProof key nodes value root_hash with
            | .ok _ => .ok ()
            | .error e => .error (.other e)

/-- ClientState::verify_non_membership from `src/v1/client_state.rs` lines
207-258 (crates copy); identical shape to `verify_membership` with the
trie walk `verify_not_in_state` (a parameter) and no value argument. -/
def verify_non_membership {Node : Type}
    (sha256f : List Nat → CryptoHash)
    (decodeNode : List Nat → Option Node)
    (verifyNotInState : List Nat → List Node → CryptoHash →
      Except String Unit)
    (pfx pathBytes : List Nat)
    (proofBytes rootBytes : List Nat) : Except Error Unit :=
  match tryFromSliceVec readVecU8 proofBytes with
  | none => .error .commitmentProofDecodingFailed
  | some proofs =>
    match proofs with
    | [] => .error .emptyMerkleProof
    | p0 :: _ =>
      let root_hash := sha256f p0
      match tryFromSliceVec readCryptoHash rootBytes with
      | none => .error .commitmentProofDecodingFailed
      | some prev_state_root_of_chunks =>
        if root_hash ∉ prev_state_root_of_chunks then
          .error .verificationFailure
        else
          match decodeAllNodes decodeNode proofs with
          | none => .error .commitmentProofDecodingFailed
          | some nodes =>
            let key := pfx ++ pathBytes
            match verifyNotInState key nodes root_hash with
            | .ok _ => .ok ()
            | .error e => .error (.other e)

/-! Borsh codec of the light client block and the header, for the codec
round-trip claim. The serializer side mirrors the derived `BorshSerialize`
impls (tagged enums and length-prefixed vectors, per the spec's section
4.B); the deserializer side mirrors the derived `BorshDeserialize` impls,
including the in-src `todo!()` of `BorshDeserialize for Signature` /
`PublicKey` (`types/src/v1/near_types/signature.rs`), which panics whenever
a signature or a public key must actually be decoded. -/

/-- Little-endian borsh encoding of a `u64` (8 bytes). -/
def u64LE (n : Nat) : List Nat :=
  [n % 256, n / 256 % 256, n / 256 ^ 2 % 256, n / 256 ^ 3 % 256,
    n / 256 ^ 4 % 256, n / 256 ^ 5 % 256, n / 256 ^ 6 % 256, n / 256 ^ 7 % 256]

/-- Read a little-endian borsh `u64` off the front of a byte list. -/
def readU64LE (bytes : List Nat) : Option (Nat × List Nat) :=
  match bytes with
  | b0 :: b1 :: b2 :: b3 :: b4 :: b5 :: b6 :: b7 :: rest =>
    some (b0 + b1 * 256 + b2 * 256 ^ 2 + b3 * 256 ^ 3 + b4 * 256 ^ 4
      + b5 * 256 ^ 5 + b6 * 256 ^ 6 + b7 * 256 ^ 7, rest)
  | _ => none

/-- `BorshSerialize for Signature` from
`types/src/v1/near_types/signature.rs` lines 94-104: tag byte `0` then the
raw signature bytes. -/
def Signature.borsh : Signature → List Nat
  | .ED25519 s => 0 :: s

/-- Borsh encoding of an `Option<Signature>`: 1-byte tag then the payload. -/
def optionSigBorsh : Option Signature → List Nat
  | none => [0]
  | some s => 1 :: s.borsh

/-- Modelled from the spec: borsh encoding of the inner-lite block view
(fields in order, `u64` little-endian integers, raw 32-byte hashes); the
defining `near_types` module is absent from `src/`. -/
def BlockHeaderInnerLiteView.borsh (i : BlockHeaderInnerLiteView) : List Nat :=
  u64LE i.height ++ i.epoch_id.data ++ i.next_epoch_id.data
    ++ i.prev_state_root.data ++ i.outcome_root.data ++ u64LE i.timestamp
    ++ i.next_bp_hash.data ++ i.block_merkle_root.data

/-- Borsh encoding of the optional next block producers: 1-byte tag, then a
length-prefixed vector of `ValidatorStakeView` encodings. -/
def nextBpsBorsh : Option (List ValidatorStakeView) → List Nat
  | none => [0]
  | some l => 1 :: borshVec ValidatorStakeView.borsh l

/-- Modelled from the spec: borsh encoding of a `LightClientBlock` (fields
in order); the defining `near_types` module is absent from `src/`. -/
def LightClientBlock.borsh (b : LightClientBlock) : List Nat :=
  b.prev_block_hash.data ++ b.next_block_inner_hash.data
    ++ b.inner_lite.borsh ++ b.inner_rest_hash.data
    ++ nextBpsBorsh b.next_bps
    ++ u32LE b.approvals_after_next.length
    ++ (b.approvals_after_next.map optionSigBorsh).flatten

/-- Read an inner-lite block view off the front of a byte list. -/
def readInnerLite (bytes : List Nat) :
    Option (BlockHeaderInnerLiteView × List Nat) :=
  match readU64LE bytes with
  | none => none
  | some (height, rest) =>
    match readCryptoHash rest with
    | none => none
    | some (epoch_id, rest) =>
      match readCryptoHash rest with
      | none => none
      | some (next_epoch_id, rest) =>
        match readCryptoHash rest with
        | none => none
        | some (prev_state_root, rest) =>
          match readCryptoHash rest with
          | none => none
          | some (outcome_root, rest) =>
            match readU64LE rest with
            | none => none
            | some (timestamp, rest) =>
              match readCryptoHash rest with
              | none => none
              | some (next_bp_hash, rest) =>
                match readCryptoHash rest with
                | none => none
                | some (block_merkle_root, rest) =>
                  some (⟨height, epoch_id, next_epoch_id, prev_state_root,
                    outcome_root, timestamp, next_bp_hash,
                    block_merkle_root⟩, rest)

/-- Borsh decode of an `Option<Signature>`: tag `0` is `None`; tag `1`
enters `BorshDeserialize for Signature`, which is the in-src `todo!()` and
panics; any other tag is a decode error. -/
def readOptionSig (bytes : List Nat) :
    Outcome (Option Signature × List Nat) :=
  match bytes with
  | 0 :: rest => .ok (none, rest)
  | 1 :: _ => .panicked
  | _ => .err .borshDeserializeError

/-- Read `n` consecutive `Option<Signature>` elements. -/
def readApprovalsElems : Nat → List Nat → Outcome (List (Option Signature) × List Nat)
  | 0, rest => .ok ([], rest)
  | k + 1, bytes =>
    match readOptionSig bytes with
    | .panicked => .panicked
    | .err e => .err e
    | .ok (x, rest) =>
      match readApprovalsElems k rest with
      | .panicked => .panicked
      | .err e => .err e
      | .ok (xs, rest) => .ok (x :: xs, rest)

/-- Read `n` consecutive `ValidatorStakeView` elements: each reads its
`account_id` string and then panics in `BorshDeserialize for PublicKey`
(the in-src `todo!()`), exactly as `ValidatorStakeView.try_from_slice`. -/
def readVSVElems : Nat → List Nat → Outcome (List ValidatorStakeView × List Nat)
  | 0, rest => .ok ([], rest)
  | _ + 1, bytes =>
    match readU32LE bytes with
    | none => .err .borshDeserializeError
    | some (n, rest) =>
      match readBytes n rest with
      | none => .err .borshDeserializeError
      | some _ => .panicked

/-- Borsh decode of the optional next block producers. -/
def readNextBps (bytes : List Nat) :
    Outcome (Option (List ValidatorStakeView) × List Nat) :=
  match bytes with
  | 0 :: rest => .ok (none, rest)
  | 1 :: rest =>
    match readU32LE rest with
    | none => .err .borshDeserializeError
    | some (count, rest) =>
      match readVSVElems count rest with
      | .panicked => .panicked
      | .err e => .err e
      | .ok (l, rest) => .ok (some l, rest)
  | _ => .err .borshDeserializeError

/-- Read a `LightClientBlock` off the front of a byte list. -/
def readLightClientBlock (bytes : List Nat) :
    Outcome (LightClientBlock × List Nat) :=
  match readCryptoHash bytes with
  | none => .err .borshDeserializeError
  | some (prev_block_hash, rest) =>
    match readCryptoHash rest with
    | none => .err .borshDeserializeError
    | some (next_block_inner_hash, rest) =>
      match readInnerLite rest with
      | none => .err .borshDeserializeError
      | some (inner_lite, rest) =>
        match readCryptoHash rest with
        | none => .err .borshDeserializeError
        | some (inner_rest_hash, rest) =>
          match readNextBps rest with
          | .panicked => .panicked
          | .err e => .err e
          | .ok (next_bps, rest) =>
            match readU32LE rest with
            | none => .err .borshDeserializeError
            | some (count, rest) =>
              match readApprovalsElems count rest with
              | .panicked => .panicked
              | .err e => .err e
              | .ok (approvals_after_next, rest) =>
                .ok (⟨prev_block_hash, next_block_inner_hash, inner_lite,
                  inner_rest_hash, next_bps, approvals_after_next⟩, rest)

/-- `LightClientBlock::try_from_slice` (borsh): the whole slice must be
consumed. -/
def LightClientBlock.try_from_slice (bytes : List Nat) :
    Outcome LightClientBlock :=
  match readLightClientBlock bytes with
  | .panicked => .panicked
  | .err e => .err e
  | .ok (b, []) => .ok b
  | .ok (_, _ :: _) => .err .borshDeserializeError

/-- `CryptoHash::try_from_slice` (borsh, derived in
`types/src/v1/near_types/hash.rs`): exactly 32 bytes. -/
def CryptoHash.try_from_slice (bytes : List Nat) : Option CryptoHash :=
  match readCryptoHash bytes with
  | some (h, []) => some h
  | _ => none

/-- `From<Header> for RawHeader` from `types/src/v1/header.rs` lines 82-95:
borsh bytes of the block, and each chunk root as its borsh bytes. -/
def headerIntoRaw (h : Header) : RawHeader :=
  ⟨h.light_client_block.borsh,
    h.prev_state_root_of_chunks.map (fun ch => ch.data)⟩

/-- The chunk-root decoding loop of `TryFrom<RawHeader>`: each entry
through `CryptoHash::try_from_slice`, failing as a whole when any entry
fails. -/
def decodeChunks : List (List Nat) → Option (List CryptoHash)
  | [] => some []
  | ch :: rest =>
    match CryptoHash.try_from_slice ch with
    | none => none
    | some c =>
      match decodeChunks rest with
      | none => none
      | some cs => some (c :: cs)

/-- `TryFrom<RawHeader> for Header` from `types/src/v1/header.rs` lines
58-80: borsh-decode the light client block (a decode failure maps to
`InvalidHeader`, a panic propagates), then each chunk root. -/
def headerTryFromRaw (raw : RawHeader) : Outcome Header :=
  match LightClientBlock.try_from_slice raw.light_client_block with
  | .panicked => .panicked
  | .err _ => .err (.other "Failed to decode light_client_block.")
  | .ok lcb =>
    match decodeChunks raw.prev_state_root_of_chunks with
    | none => .err (.other "Failed to decode prev_state_root_of_chunks.")
    | some chunks => .ok ⟨lcb, chunks⟩

/-- `From<ConsensusState> for RawConsensusState` from
`types/src/v1/consensus_state.rs` lines 81-96: `None` becomes the empty
entry list, `Some(bps)` maps each producer to its borsh bytes; the header
converts through `From<Header> for RawHeader`. -/
def consensusStateIntoRaw (value : ConsensusState) : RawConsensusState :=
  { current_bps :=
      match value.current_bps with
      | none => []
      | some bps => bps.map (fun vsv => ⟨vsv.borsh⟩)
    header := some (headerIntoRaw value.header) }

/-- RawMisbehaviour (`ics12_proto::v1::Misbehaviour`). -/
structure RawMisbehaviour where
  client_id : String
  header_1 : Option RawHeader
  header_2 : Option RawHeader
deriving DecidableEq

/-- `From<Misbehaviour> for RawMisbehaviour` from
`types/src/v1/misbehaviour.rs`. -/
def misbehaviourIntoRaw (m : Misbehaviour) : RawMisbehaviour :=
  ⟨m.client_id, some (headerIntoRaw m.header1), some (headerIntoRaw m.header2)⟩

/-- `TryFrom<RawMisbehaviour> for Misbehaviour` from
`types/src/v1/misbehaviour.rs` lines 60-84; the `ClientId` parsing
(external `ibc-core` validation) is a parameter. -/
def misbehaviourTryFromRaw (parseClientId : String → Option String)
    (raw : RawMisbehaviour) : Outcome Misbehaviour :=
  match parseClientId raw.client_id with
  | none => .err (.other "invalid raw client id")
  | some client_id =>
    match raw.header_1 with
    | none => .err (.other "missing header1")
    | some rh1 =>
      match headerTryFromRaw rh1 with
      | .panicked => .panicked
      | .err e => .err e
      | .ok h1 =>
        match raw.header_2 with
        | none => .err (.other "missing header2")
        | some rh2 =>
          match headerTryFromRaw rh2 with
          | .panicked => .panicked
          | .err e => .err e
          | .ok h2 => .ok ⟨client_id, h1, h2⟩

/-- Headers the borsh codec can reproduce without reaching the in-src
`todo!()`: every approval slot absent and no next block producers (a
present signature or producer entry panics at decode), 32-byte hashes,
in-range `u64` integer fields, and an in-range approval count. -/
def Header.codecSafe (h : Header) : Prop :=
  h.light_client_block.prev_block_hash.data.length = 32
  ∧ h.light_client_block.next_block_inner_hash.data.length = 32
  ∧ h.light_client_block.inner_rest_hash.data.length = 32
  ∧ h.light_client_block.inner_lite.epoch_id.data.length = 32
  ∧ h.light_client_block.inner_lite.next_epoch_id.data.length = 32
  ∧ h.light_client_block.inner_lite.prev_state_root.data.length = 32
  ∧ h.light_client_block.inner_lite.outcome_root.data.length = 32
  ∧ h.light_client_block.inner_lite.next_bp_hash.data.length = 32
  ∧ h.light_client_block.inner_lite.block_merkle_root.data.length = 32
  ∧ h.light_client_block.inner_lite.height < 2 ^ 64
  ∧ h.light_client_block.inner_lite.timestamp < 2 ^ 64
  ∧ h.light_client_block.next_bps = none
  ∧ (∀ a ∈ h.light_client_block.approvals_after_next, a = none)
  ∧ h.light_client_block.approvals_after_next.length < 2 ^ 32
  ∧ (∀ c ∈ h.prev_state_root_of_chunks, c.data.length = 32)

/-! Concrete fixtures used by witnesses and counterexamples. -/

/-- all-zero 32-byte hash. -/
def hashZ : CryptoHash := ⟨List.replicate 32 0⟩

/-- all-one 32-byte hash (an epoch id). -/
def hashE : CryptoHash := ⟨List.replicate 32 1⟩

/-- all-two 32-byte hash (a next-epoch id). -/
def hashN : CryptoHash := ⟨List.replicate 32 2⟩

/-- a single block producer with stake 1. -/
def vsv1 : ValidatorStakeView :=
  ⟨[97], PublicKey.ED25519 (List.replicate 32 3), 1⟩

/-- a test header at the given height and timestamp in epoch `hashE` (next
epoch `hashN`), with the given approvals, no next block producers, and a
single chunk root equal to its `prev_state_root` (a one-leaf merkle tree,
whose root is the leaf itself). -/
def mkHeader (h ts : Nat) (approvals : List (Option Signature)) : Header :=
  ⟨⟨hashZ, hashZ, ⟨h, hashE, hashN, hashZ, hashZ, ts, hashZ, hashZ⟩, hashZ,
      none, approvals⟩,
    [hashZ]⟩

/-- signature verifier that accepts everything (stands in for ed25519 on
fixture data). -/
def verifyAll : Signature → List Nat → PublicKey → Bool :=
  fun _ _ _ => true

/-- constant stand-in hash function for fixtures. -/
def shaZ : List Nat → CryptoHash :=
  fun _ => hashZ

/-- constant stand-in approval-message encoding for fixtures. -/
def apprZ : LightClientBlock → List Nat :=
  fun _ => []

/-! ## Helper lemmas -/

theorem height_not_le {a b : Height} (h : ¬ Height.le a b) : Height.lt b a := by
  unfold Height.le at h
  unfold Height.lt
  omega

theorem height_le_refl (a : Height) : Height.le a a := by
  unfold Height.le
  omega

theorem readBytes_append : ∀ (l rest : List Nat),
    readBytes l.length (l ++ rest) = some (l, rest)
  | [], _ => rfl
  | b :: l, rest => by
    simp only [List.length_cons, List.cons_append, readBytes, List.append_eq,
      readBytes_append l rest]

theorem readBytes_exact (l : List Nat) : readBytes l.length l = some (l, []) := by
  have h := readBytes_append l []
  rwa [List.append_nil] at h

theorem readCryptoHash_append (h : CryptoHash) (rest : List Nat)
    (hl : h.data.length = 32) :
    readCryptoHash (h.data ++ rest) = some (h, rest) := by
  obtain ⟨d⟩ := h
  unfold readCryptoHash
  rw [← hl, readBytes_append]

theorem readU64LE_append (n : Nat) (rest : List Nat) (hn : n < 2 ^ 64) :
    readU64LE (u64LE n ++ rest) = some (n, rest) := by
  simp only [u64LE, List.cons_append, List.nil_append, readU64LE,
    Option.some.injEq, Prod.mk.injEq]
  exact ⟨by omega, trivial⟩

theorem readU32LE_append (n : Nat) (rest : List Nat) (hn : n < 2 ^ 32) :
    readU32LE (u32LE n ++ rest) = some (n, rest) := by
  simp only [u32LE, List.cons_append, List.nil_append, readU32LE,
    Option.some.injEq, Prod.mk.injEq]
  exact ⟨by omega, trivial⟩

theorem readInnerLite_append (i : BlockHeaderInnerLiteView) (rest : List Nat)
    (h4 : i.epoch_id.data.length = 32)
    (h5 : i.next_epoch_id.data.length = 32)
    (h6 : i.prev_state_root.data.length = 32)
    (h7 : i.outcome_root.data.length = 32)
    (h8 : i.next_bp_hash.data.length = 32)
    (h9 : i.block_merkle_root.data.length = 32)
    (h10 : i.height < 2 ^ 64) (h11 : i.timestamp < 2 ^ 64) :
    readInnerLite (i.borsh ++ rest) = some (i, rest) := by
  obtain ⟨f1, f2, f3, f4, f5, f6, f7, f8⟩ := i
  simp only [BlockHeaderInnerLiteView.borsh, List.append_assoc]
  simp only [readInnerLite, readU64LE_append _ _ h10,
    readCryptoHash_append _ _ h4, readCryptoHash_append _ _ h5,
    readCryptoHash_append _ _ h6, readCryptoHash_append _ _ h7,
    readU64LE_append _ _ h11, readCryptoHash_append _ _ h8,
    readCryptoHash_append _ _ h9]

theorem readApprovalsNone : ∀ (l : List (Option Signature)) (rest : List Nat),
    (∀ a ∈ l, a = none) →
    readApprovalsElems l.length ((l.map optionSigBorsh).flatten ++ rest)
      = .ok (l, rest)
  | [], _, _ => rfl
  | a :: l, rest, h => by
    have ha : a = none := h a (List.mem_cons_self a l)
    subst ha
    simp only [List.map_cons, List.flatten_cons, optionSigBorsh,
      List.cons_append, List.nil_append, List.length_cons,
      readApprovalsElems, readOptionSig,
      readApprovalsNone l rest (fun x hx => h x (List.mem_cons_of_mem _ hx))]

theorem decodeChunks_map : ∀ (l : List CryptoHash),
    (∀ c ∈ l, c.data.length = 32) →
    decodeChunks (l.map (fun ch => ch.data)) = some l
  | [], _ => rfl
  | c :: l, h => by
    have hc2 : CryptoHash.try_from_slice c.data = some c := by
      obtain ⟨d⟩ := c
      have hd : d.length = 32 := h ⟨d⟩ (List.mem_cons_self _ _)
      unfold CryptoHash.try_from_slice readCryptoHash
      rw [← hd, readBytes_exact]
    simp only [List.map_cons, decodeChunks, hc2,
      decodeChunks_map l (fun x hx => h x (List.mem_cons_of_mem _ hx))]

theorem readLCB_append (b : LightClientBlock) (rest : List Nat)
    (h1 : b.prev_block_hash.data.length = 32)
    (h2 : b.next_block_inner_hash.data.length = 32)
    (h3 : b.inner_rest_hash.data.length = 32)
    (h4 : b.inner_lite.epoch_id.data.length = 32)
    (h5 : b.inner_lite.next_epoch_id.data.length = 32)
    (h6 : b.inner_lite.prev_state_root.data.length = 32)
    (h7 : b.inner_lite.outcome_root.data.length = 32)
    (h8 : b.inner_lite.next_bp_hash.data.length = 32)
    (h9 : b.inner_lite.block_merkle_root.data.length = 32)
    (h10 : b.inner_lite.height < 2 ^ 64)
    (h11 : b.inner_lite.timestamp < 2 ^ 64)
    (h12 : b.next_bps = none)
    (h13 : ∀ a ∈ b.approvals_after_next, a = none)
    (h14 : b.approvals_after_next.length < 2 ^ 32) :
    readLightClientBlock (b.borsh ++ rest) = .ok (b, rest) := by
  obtain ⟨pbh, nbih, il, irh, nbps, apps⟩ := b
  have hnb : nbps = none := h12
  subst hnb
  simp only [LightClientBlock.borsh, nextBpsBorsh, List.append_assoc,
    List.cons_append, List.nil_append]
  simp only [readLightClientBlock, readCryptoHash_append _ _ h1,
    readCryptoHash_append _ _ h2,
    readInnerLite_append il _ h4 h5 h6 h7 h8 h9 h10 h11,
    readCryptoHash_append _ _ h3, readNextBps,
    readU32LE_append _ _ h14, readApprovalsNone apps rest h13]

/-- the borsh codec reproduces every codec-safe header. -/
theorem headerTryFromRaw_roundtrip (h : Header) (hs : Header.codecSafe h) :
    headerTryFromRaw (headerIntoRaw h) = .ok h := by
  obtain ⟨lcb, chunks⟩ := h
  obtain ⟨h1, h2, h3, h4, h5, h6, h7, h8, h9, h10, h11, h12, h13, h14, h15⟩ := hs
  have hb : readLightClientBlock (lcb.borsh ++ []) = .ok (lcb, []) :=
    readLCB_append lcb [] h1 h2 h3 h4 h5 h6 h7 h8 h9 h10 h11 h12 h13 h14
  rw [List.append_nil] at hb
  unfold headerIntoRaw headerTryFromRaw LightClientBlock.try_from_slice
  simp only [hb, decodeChunks_map chunks h15]

/-- the client-state round-trip holds exactly on decoder-reproducible
client states. -/
theorem clientStateTryFromRaw_intoRaw_iff (cs : ClientState) :
    clientStateTryFromRaw (clientStateIntoRaw cs) = .ok cs ↔
      (cs.frozen_height = none ∧ cs.upgrade_commitment_pfx = []
        ∧ cs.upgrade_key = [] ∧ cs.latest_height.revision_height ≠ 0) := by
  obtain ⟨tp, fh, lh, ts, up, uk⟩ := cs
  obtain ⟨rn, rh⟩ := lh
  have htp : RawDuration.tryIntoDuration (Duration.intoRaw tp) = some tp := by
    obtain ⟨s, n⟩ := tp
    simp only [Duration.intoRaw, RawDuration.tryIntoDuration]
    rw [if_neg (by omega)]
    simp
  constructor
  · intro hr
    unfold clientStateIntoRaw clientStateTryFromRaw at hr
    simp only [Option.some_bind, htp] at hr
    by_cases hrh : rh = 0
    · subst hrh
      simp [Height.intoRaw, RawHeight.tryIntoHeight] at hr
    · rw [show RawHeight.tryIntoHeight (Height.intoRaw ⟨rn, rh⟩)
          = some ⟨rn, rh⟩ from by
            simp only [Height.intoRaw, RawHeight.tryIntoHeight]
            rw [if_neg hrh]] at hr
      simp only [] at hr
      cases fh with
      | none =>
        rw [if_neg (by decide)] at hr
        simp only [ClientState.new_without_validation, Except.ok.injEq,
          ClientState.mk.injEq, true_and] at hr
        obtain ⟨hup, huk⟩ := hr
        exact ⟨rfl, hup.symm, huk.symm, hrh⟩
      | some f =>
        obtain ⟨frn, frh⟩ := f
        by_cases hf0 : frh = 0
        · subst hf0
          simp [RawHeight.tryIntoHeight, Height.intoRaw,
            ClientState.new_without_validation] at hr
        · simp [RawHeight.tryIntoHeight, Height.intoRaw, hf0] at hr
  · rintro ⟨hfh, hup, huk, hrh⟩
    have hfh2 : fh = none := hfh
    have hup2 : up = [] := hup
    have huk2 : uk = [] := huk
    subst hfh2
    subst hup2
    subst huk2
    unfold clientStateIntoRaw clientStateTryFromRaw
    simp only [Option.some_bind, htp]
    rw [show RawHeight.tryIntoHeight (Height.intoRaw ⟨rn, rh⟩)
        = some ⟨rn, rh⟩ from by
          simp only [Height.intoRaw, RawHeight.tryIntoHeight]
          rw [if_neg hrh]]
    simp only [Option.map_none, Option.none_bind, Option.isSome_none,
      Bool.false_eq_true, if_false]
    rfl

/-- verify_header succeeds only above the latest consensus header's
height. -/
theorem verify_header_ok_height
    (verifySig : Signature → List Nat → PublicKey → Bool)
    (sha256f : List Nat → CryptoHash)
    (approvalMessage : LightClientBlock → List Nat)
    (latest_consensus_state : ConsensusState) (header : Header)
    (hok : verify_header verifySig sha256f approvalMessage
      latest_consensus_state header = .ok ()) :
    Height.lt latest_consensus_state.header.height header.height := by
  simp only [verify_header] at hok
  split at hok
  · simp at hok
  · exact height_not_le (by assumption)

/-- verify_header succeeds only with a strict stake supermajority. -/
theorem verify_header_ok_strict
    (verifySig : Signature → List Nat → PublicKey → Bool)
    (sha256f : List Nat → CryptoHash)
    (approvalMessage : LightClientBlock → List Nat)
    (latest_consensus_state : ConsensusState) (header : Header)
    (bps : List ValidatorStakeView) (total_stake approved_stake : Nat)
    (hbps : latest_consensus_state.get_block_producers_of header.epoch_id
      = some bps)
    (hagg : aggregateStakes verifySig (approvalMessage header.light_client_block)
        (header.light_client_block.approvals_after_next.zip bps) 0 0
      = .ok (total_stake, approved_stake))
    (hok : verify_header verifySig sha256f approvalMessage
      latest_consensus_state header = .ok ()) :
    approved_stake * 3 > total_stake * 2 := by
  simp only [verify_header, hbps, hagg] at hok
  split at hok
  · simp at hok
  · split at hok
    · simp at hok
    · split at hok
      · simp at hok
      · split at hok
        · simp at hok
        · omega

/-! ## Claim theorems -/

/-- C2 counterexample: with `header1` at height 1 and `header2` at height 2
(equal timestamps), `check_for_misbehaviour_misbehaviour` returns
`Ok(true)` although `header1.height > header2.height` fails — the code
never compares the two heights in the differing-heights branch, so the
claim's "false otherwise" is violated at this input. -/
theorem C2_counterexample :
    check_for_misbehaviour_misbehaviour (fun _ => hashZ)
      ⟨"test-client", mkHeader 1 5 [], mkHeader 2 5 []⟩ = .ok true
    ∧ ¬(Height.lt (mkHeader 2 5 []).height (mkHeader 1 5 []).height
        ∧ (mkHeader 1 5 []).raw_timestamp ≤ (mkHeader 2 5 []).raw_timestamp) := by
  constructor
  · rfl
  · decide

/-- C2 (amended): equal heights give `Ok(hash1 ≠ hash2)`; differing heights
give `Ok(timestamp1 ≤ timestamp2)` regardless of which header has the
greater height — the height-ordering condition of the original claim is
not checked by the code. -/
theorem C2_check_for_misbehaviour_misbehaviour_characterization
    (current_block_hash : LightClientBlock → CryptoHash) (m : Misbehaviour) :
    (m.header1.height = m.header2.height →
      check_for_misbehaviour_misbehaviour current_block_hash m
        = .ok (decide (current_block_hash m.header1.light_client_block
            ≠ current_block_hash m.header2.light_client_block)))
    ∧ (m.header1.height ≠ m.header2.height →
      check_for_misbehaviour_misbehaviour current_block_hash m
        = .ok (decide (m.header1.raw_timestamp ≤ m.header2.raw_timestamp))) := by
  unfold check_for_misbehaviour_misbehaviour
  constructor
  · intro h
    simp [h]
  · intro h
    simp [h]

/-- C2 witness: the amended characterization applied at concrete inputs
(differing heights 3 and 2, timestamps 7 ≤ 9, so the result is `Ok(true)`). -/
theorem C2_witness :
    check_for_misbehaviour_misbehaviour (fun _ => hashZ)
      ⟨"test-client", mkHeader 3 7 [], mkHeader 2 9 []⟩ = .ok true := by
  exact (C2_check_for_misbehaviour_misbehaviour_characterization
    (fun _ => hashZ) ⟨"test-client", mkHeader 3 7 [], mkHeader 2 9 []⟩).2
    (by decide)

/-- C1: if the stake aggregation over the zip of the header's
`approvals_after_next` with the epoch block producers yields
`(total_stake, approved_stake)` with `approved_stake * 3 ≤ total_stake * 2`
(equality included), then `verify_header` returns an error; and acceptance
requires the strict inequality `approved_stake * 3 > total_stake * 2`. -/
theorem C1_supermajority_strict
    (verifySig : Signature → List Nat → PublicKey → Bool)
    (sha256f : List Nat → CryptoHash)
    (approvalMessage : LightClientBlock → List Nat)
    (latest_consensus_state : ConsensusState) (header : Header)
    (bps : List ValidatorStakeView) (total_stake approved_stake : Nat)
    (hbps : latest_consensus_state.get_block_producers_of header.epoch_id
      = some bps)
    (hagg : aggregateStakes verifySig (approvalMessage header.light_client_block)
        (header.light_client_block.approvals_after_next.zip bps) 0 0
      = .ok (total_stake, approved_stake)) :
    (approved_stake * 3 ≤ total_stake * 2 →
      ∃ e, verify_header verifySig sha256f approvalMessage
        latest_consensus_state header = .error e)
    ∧ (verify_header verifySig sha256f approvalMessage
        latest_consensus_state header = .ok () →
      approved_stake * 3 > total_stake * 2) := by
  have hstrict := verify_header_ok_strict verifySig sha256f approvalMessage
    latest_consensus_state header bps total_stake approved_stake hbps hagg
  refine ⟨fun hle => ?_, hstrict⟩
  cases hr : verify_header verifySig sha256f approvalMessage
      latest_consensus_state header with
  | error e => exact ⟨e, rfl⟩
  | ok u =>
    cases u
    exact absurd (hstrict hr) (by omega)

/-- C1 witness: a single block producer of stake 1 whose approval slot is
empty gives `(total, approved) = (1, 0)` with `0 * 3 ≤ 1 * 2`, and
`verify_header` indeed errors there. -/
theorem C1_witness :
    ∃ e, verify_header verifyAll shaZ apprZ
      (ConsensusState.new (some [vsv1]) (mkHeader 1 100 []))
      (mkHeader 2 200 [none]) = .error e := by
  exact (C1_supermajority_strict verifyAll shaZ apprZ
    (ConsensusState.new (some [vsv1]) (mkHeader 1 100 []))
    (mkHeader 2 200 [none]) [vsv1] 1 0 (by rfl) (by rfl)).1 (by decide)

/-- C10: verify_client_message on a SubmitMisbehaviour message runs
`verify_misbehaviour`, which succeeds only if both headers pass the full
header verification against the consensus state stored at the client's
latest height; in particular (when that state's header sits at the
client's latest height, as every stored state does) both headers must be
at heights strictly above the client's latest height. -/
theorem C10_misbehaviour_requires_both_headers_verified
    (verifySig : Signature → List Nat → PublicKey → Bool)
    (sha256f : List Nat → CryptoHash)
    (approvalMessage : LightClientBlock → List Nat)
    (st : Store) (m : Misbehaviour) (lcs : ConsensusState)
    (hlook : lookupCs st st.clientState.latest_height = some lcs)
    (hheight : lcs.header.height = st.clientState.latest_height)
    (hok : verify_misbehaviour verifySig sha256f approvalMessage st m
      = .ok ()) :
    verify_header verifySig sha256f approvalMessage lcs m.header1 = .ok ()
    ∧ verify_header verifySig sha256f approvalMessage lcs m.header2 = .ok ()
    ∧ Height.lt st.clientState.latest_height m.header1.height
    ∧ Height.lt st.clientState.latest_height m.header2.height := by
  unfold verify_misbehaviour verify_header_ctx at hok
  rw [hlook] at hok
  simp only [] at hok
  have h1 : verify_header verifySig sha256f approvalMessage lcs m.header1
      = .ok () := by
    cases hr : verify_header verifySig sha256f approvalMessage lcs m.header1 with
    | error e => rw [hr] at hok; simp at hok
    | ok u => cases u; rfl
  rw [h1] at hok
  have h2 : verify_header verifySig sha256f approvalMessage lcs m.header2
      = .ok () := by
    cases hr : verify_header verifySig sha256f approvalMessage lcs m.header2 with
    | error e => rw [hr] at hok; simp at hok
    | ok u => cases u; rfl
  refine ⟨h1, h2, ?_, ?_⟩
  · rw [← hheight]
    exact verify_header_ok_height verifySig sha256f approvalMessage lcs
      m.header1 h1
  · rw [← hheight]
    exact verify_header_ok_height verifySig sha256f approvalMessage lcs
      m.header2 h2

/-- C10 witness: a store whose latest consensus state sits at height 1 and
a misbehaviour whose two headers (heights 2 and 3, each approved by the
single stake-1 producer) both verify; the theorem then yields the strict
height bounds. -/
theorem C10_witness :
    Height.lt
      (Store.mk
        (ClientState.new_without_validation ⟨3600, 0⟩ ⟨0, 1⟩ 100)
        [(⟨0, 1⟩, ConsensusState.new (some [vsv1]) (mkHeader 1 100 []))] [] []).clientState.latest_height
      (mkHeader 2 200 [some (Signature.ED25519 [])]).height
    ∧ Height.lt
      (Store.mk
        (ClientState.new_without_validation ⟨3600, 0⟩ ⟨0, 1⟩ 100)
        [(⟨0, 1⟩, ConsensusState.new (some [vsv1]) (mkHeader 1 100 []))] [] []).clientState.latest_height
      (mkHeader 3 300 [some (Signature.ED25519 [])]).height := by
  have h := C10_misbehaviour_requires_both_headers_verified verifyAll shaZ apprZ
    (Store.mk (ClientState.new_without_validation ⟨3600, 0⟩ ⟨0, 1⟩ 100)
      [(⟨0, 1⟩, ConsensusState.new (some [vsv1]) (mkHeader 1 100 []))] [] [])
    ⟨"test-client", mkHeader 2 200 [some (Signature.ED25519 [])],
      mkHeader 3 300 [some (Signature.ED25519 [])]⟩
    (ConsensusState.new (some [vsv1]) (mkHeader 1 100 []))
    (by rfl) (by rfl) (by rfl)
  exact ⟨h.2.2.1, h.2.2.2⟩

/-- C6: update_state_on_misbehaviour unconditionally stores a client state
frozen at the sentinel `Height::min(0)` for every message and update kind,
and any client state with a set frozen height reports `Frozen` from
`status` regardless of host time and stored consensus states. -/
theorem C6_freeze_unconditional
    (st : Store) (msg : AnyMsg) (kind : UpdateKind) :
    (update_state_on_misbehaviour st msg kind).clientState.frozen_height
      = some (Height.minH 0)
    ∧ ∀ (st2 : Store) (now : Nat) (h : Height),
        st2.clientState.frozen_height = some h →
        status st2 now = .ok .Frozen := by
  constructor
  · rfl
  · intro st2 now h hfz
    unfold status ClientState.is_frozen
    rw [hfz]
    rfl

/-- C6 witness: the theorem applied to a concrete active store; freezing it
sets the sentinel, and a store frozen at height 7 reports `Frozen`. -/
theorem C6_witness :
    (update_state_on_misbehaviour
        (Store.mk (ClientState.new_without_validation ⟨3600, 0⟩ ⟨0, 1⟩ 100) [] [] [])
        ⟨"url", []⟩ UpdateKind.SubmitMisbehaviour).clientState.frozen_height
      = some (Height.minH 0)
    ∧ status
        (Store.mk
          ((ClientState.new_without_validation ⟨3600, 0⟩ ⟨0, 1⟩ 100).with_frozen_height ⟨0, 7⟩)
          [] [] []) 5
      = .ok .Frozen := by
  have h := C6_freeze_unconditional
    (Store.mk (ClientState.new_without_validation ⟨3600, 0⟩ ⟨0, 1⟩ 100) [] [] [])
    ⟨"url", []⟩ UpdateKind.SubmitMisbehaviour
  exact ⟨h.1, h.2 _ 5 ⟨0, 7⟩ rfl⟩

/-- C7: for a non-frozen client, `status` returns `Expired` (not an error)
when the consensus state at the latest height is missing; with that state
present it returns `Expired` exactly when the host clock is at or past the
state's timestamp and the elapsed nanoseconds exceed the trusting period;
a latest consensus state whose timestamp lies in the host clock's future
never expires the client; otherwise the status is `Active`. -/
theorem C7_status_expiry (st : Store) (now : Nat)
    (hnf : st.clientState.frozen_height = none) :
    (lookupCs st st.clientState.latest_height = none →
      status st now = .ok .Expired)
    ∧ ∀ lcs, lookupCs st st.clientState.latest_height = some lcs →
      ((lcs.header.raw_timestamp ≤ now
          ∧ now - lcs.header.raw_timestamp
            > st.clientState.trusting_period.toNanos →
        status st now = .ok .Expired)
      ∧ (now < lcs.header.raw_timestamp → status st now = .ok .Active)
      ∧ (lcs.header.raw_timestamp ≤ now
          ∧ now - lcs.header.raw_timestamp
            ≤ st.clientState.trusting_period.toNanos →
        status st now = .ok .Active)) := by
  have hfz : st.clientState.is_frozen = false := by
    unfold ClientState.is_frozen
    rw [hnf]
    rfl
  constructor
  · intro hmiss
    unfold status
    rw [hfz, hmiss]
    rfl
  · intro lcs hsome
    refine ⟨fun hexp => ?_, fun hfut => ?_, fun hact => ?_⟩
    · have h2 : now - lcs.header.raw_timestamp
          > st.clientState.trusting_period.toNanos := hexp.2
      unfold status durationSince
      rw [hfz, hsome]
      simp only [Bool.false_eq_true, if_false, if_pos hexp.1, if_pos h2]
    · have h1 : ¬ (lcs.header.raw_timestamp ≤ now) := by omega
      unfold status durationSince
      rw [hfz, hsome]
      simp only [Bool.false_eq_true, if_false, if_neg h1]
    · have h2 : ¬ (now - lcs.header.raw_timestamp
          > st.clientState.trusting_period.toNanos) := by omega
      unfold status durationSince
      rw [hfz, hsome]
      simp only [Bool.false_eq_true, if_false, if_pos hact.1, if_neg h2]

/-- C7 witness: the theorem applied to one concrete store in each of the
four situations (missing state; elapsed beyond the trusting period; state
timestamp in the future; fresh state). -/
theorem C7_witness :
    status (Store.mk (ClientState.new_without_validation ⟨3600, 0⟩ ⟨0, 1⟩ 100) [] [] []) 5
      = .ok .Expired
    ∧ status
        (Store.mk (ClientState.new_without_validation ⟨1, 0⟩ ⟨0, 1⟩ 100)
          [(⟨0, 1⟩, ConsensusState.new none (mkHeader 1 100 []))] [] [])
        2000000200
      = .ok .Expired
    ∧ status
        (Store.mk (ClientState.new_without_validation ⟨1, 0⟩ ⟨0, 1⟩ 100)
          [(⟨0, 1⟩, ConsensusState.new none (mkHeader 1 100 []))] [] [])
        50
      = .ok .Active
    ∧ status
        (Store.mk (ClientState.new_without_validation ⟨1, 0⟩ ⟨0, 1⟩ 100)
          [(⟨0, 1⟩, ConsensusState.new none (mkHeader 1 100 []))] [] [])
        300
      = .ok .Active := by
  refine ⟨?_, ?_, ?_, ?_⟩
  · exact (C7_status_expiry
      (Store.mk (ClientState.new_without_validation ⟨3600, 0⟩ ⟨0, 1⟩ 100) [] [] [])
      5 rfl).1 rfl
  · exact ((C7_status_expiry
      (Store.mk (ClientState.new_without_validation ⟨1, 0⟩ ⟨0, 1⟩ 100)
        [(⟨0, 1⟩, ConsensusState.new none (mkHeader 1 100 []))] [] [])
      2000000200 rfl).2
      (ConsensusState.new none (mkHeader 1 100 [])) rfl).1 (by decide)
  · exact ((C7_status_expiry
      (Store.mk (ClientState.new_without_validation ⟨1, 0⟩ ⟨0, 1⟩ 100)
        [(⟨0, 1⟩, ConsensusState.new none (mkHeader 1 100 []))] [] [])
      50 rfl).2
      (ConsensusState.new none (mkHeader 1 100 [])) rfl).2.1 (by decide)
  · exact ((C7_status_expiry
      (Store.mk (ClientState.new_without_validation ⟨1, 0⟩ ⟨0, 1⟩ 100)
        [(⟨0, 1⟩, ConsensusState.new none (mkHeader 1 100 []))] [] [])
      300 rfl).2
      (ConsensusState.new none (mkHeader 1 100 [])) rfl).2.2 (by decide)

/-- C8: when a consensus state already exists at the header's height,
`update_state` leaves the store untouched and returns `[header.height]`;
and every successful `update_state` (in particular the first submission of
that header) reports exactly `[header.height]`, so a second submission of
the same header returns the same list over identical store contents. -/
theorem C8_update_state_idempotent
    (st : Store) (hostTime : Nat) (hostHeight : Height) (header : Header)
    (c : ConsensusState) (hex : lookupCs st header.height = some c) :
    update_state st hostTime hostHeight header = .ok (st, [header.height])
    ∧ ∀ (st2 : Store) (t2 : Nat) (hh2 : Height) (st3 : Store)
        (heights : List Height),
        update_state st2 t2 hh2 header = .ok (st3, heights) →
        heights = [header.height] := by
  constructor
  · simp only [update_state, hex]
  · intro st2 t2 hh2 st3 heights hok
    simp only [update_state] at hok
    cases hlook : lookupCs st2 header.height with
    | some c2 =>
      rw [hlook] at hok
      simp only [Except.ok.injEq, Prod.mk.injEq] at hok
      exact hok.2.symm
    | none =>
      rw [hlook] at hok
      simp only [Except.ok.injEq, Prod.mk.injEq] at hok
      exact hok.2.symm

/-- C8 witness: with a consensus state already stored at height 2, a second
submission of the height-2 header is a no-op returning `[⟨0,2⟩]`. -/
theorem C8_witness :
    update_state
      (Store.mk (ClientState.new_without_validation ⟨3600, 0⟩ ⟨0, 2⟩ 200)
        [(⟨0, 2⟩, ConsensusState.new none (mkHeader 2 200 []))] [] [])
      999 ⟨0, 77⟩ (mkHeader 2 200 [])
    = .ok
        (Store.mk (ClientState.new_without_validation ⟨3600, 0⟩ ⟨0, 2⟩ 200)
          [(⟨0, 2⟩, ConsensusState.new none (mkHeader 2 200 []))] [] [],
          [(mkHeader 2 200 []).height]) := by
  exact (C8_update_state_idempotent
    (Store.mk (ClientState.new_without_validation ⟨3600, 0⟩ ⟨0, 2⟩ 200)
      [(⟨0, 2⟩, ConsensusState.new none (mkHeader 2 200 []))] [] [])
    999 ⟨0, 77⟩ (mkHeader 2 200 [])
    (ConsensusState.new none (mkHeader 2 200 [])) (by rfl)).1

/-- C9: a successful `update_state` never decreases `latest_height`, and
whenever it actually writes (no consensus state pre-existing at the
header's height) the stored client state's `latest_height` is exactly
`max(header.height, previous latest_height)`. -/
theorem C9_latest_height_monotonic
    (st : Store) (hostTime : Nat) (hostHeight : Height) (header : Header)
    (st2 : Store) (heights : List Height)
    (hok : update_state st hostTime hostHeight header = .ok (st2, heights)) :
    Height.le st.clientState.latest_height st2.clientState.latest_height
    ∧ (lookupCs st header.height = none →
        st2.clientState.latest_height
          = Height.maxH header.height st.clientState.latest_height) := by
  simp only [update_state] at hok
  cases hlook : lookupCs st header.height with
  | some c =>
    rw [hlook] at hok
    simp only [Except.ok.injEq, Prod.mk.injEq] at hok
    constructor
    · rw [← hok.1]
      exact height_le_refl _
    · intro hcontra
      exact absurd hcontra (by simp)
  | none =>
    rw [hlook] at hok
    simp only [Except.ok.injEq, Prod.mk.injEq] at hok
    have hcl : st2.clientState.latest_height
        = Height.maxH header.height st.clientState.latest_height := by
      rw [← hok.1]
      rfl
    constructor
    · rw [hcl]
      unfold Height.maxH
      by_cases hle : Height.le header.height st.clientState.latest_height
      · rw [if_pos hle]
        exact height_le_refl _
      · rw [if_neg hle]
        have := height_not_le hle
        unfold Height.lt at this
        unfold Height.le
        omega
    · intro _
      exact hcl

/-- C9 witness: updating from latest height 1 with a height-3 header stores
latest height `max(⟨0,3⟩, ⟨0,1⟩) = ⟨0,3⟩`, which is an increase. -/
theorem C9_witness :
    Height.le (⟨0, 1⟩ : Height) ⟨0, 3⟩
    ∧ ((update_state
        (Store.mk (ClientState.new_without_validation ⟨3600, 0⟩ ⟨0, 1⟩ 100)
          [(⟨0, 1⟩, ConsensusState.new none (mkHeader 1 100 []))] [] [])
        999 ⟨0, 77⟩ (mkHeader 3 300 [])).map (fun p => p.1.clientState.latest_height))
      = .ok ⟨0, 3⟩ := by
  have h := C9_latest_height_monotonic
    (Store.mk (ClientState.new_without_validation ⟨3600, 0⟩ ⟨0, 1⟩ 100)
      [(⟨0, 1⟩, ConsensusState.new none (mkHeader 1 100 []))] [] [])
    999 ⟨0, 77⟩ (mkHeader 3 300 []) _ _ (by rfl)
  exact ⟨h.1, by rfl⟩

/-- a client state with a non-empty `upgrade_key`. -/
def csUpgrade : ClientState :=
  ⟨⟨3600, 0⟩, none, ⟨0, 5⟩, 42, [], [1]⟩

/-- C3 counterexample: decoding the encoding of a `ClientState` whose
`upgrade_key` is the non-empty `[1]` does not give the value back — the
decoder rebuilds the state with `new_without_validation`, which resets both
upgrade fields to empty. This is exactly one of the claim's "in particular"
cases. -/
theorem C3_counterexample :
    clientStateTryFromRaw (clientStateIntoRaw csUpgrade) ≠ .ok csUpgrade := by
  intro h
  have h0 : clientStateTryFromRaw (clientStateIntoRaw csUpgrade)
      = .ok { csUpgrade with upgrade_key := [] } := rfl
  have h2 := h0.symm.trans h
  injection h2 with h3
  exact absurd h3 (by decide)

/-- C3 (amended): `encode` is deterministic for all four types, and the
round-trip `decode(encode(x)) = x` holds exactly on the
decoder-reproducible values. For `ClientState` the round-trip holds if and
only if `frozen_height` is `None`, `upgrade_commitment_prefix` and
`upgrade_key` are both empty, and the latest height is representable; in
particular it fails for the claim's non-empty upgrade fields, which the
decoder resets to empty. For `Header` it holds on codec-safe headers (all
approval slots absent, no next block producers, 32-byte hashes, in-range
integers); a header carrying a signature panics at decode through the
in-src `todo!()` instead (shown at a concrete input). For
`ConsensusState` it holds for `current_bps = None` over a codec-safe
header, while the claim's `current_bps = Some([])` decodes back with
`current_bps = None` — a distinct value, so that round-trip fails (any
non-empty `current_bps` panics at decode, `C4`). For `Misbehaviour` it
holds when both headers are codec-safe and the client id re-parses to
itself. -/
theorem C3_codec_roundtrip :
    (∀ cs : ClientState,
      clientStateTryFromRaw (clientStateIntoRaw cs) = .ok cs ↔
        (cs.frozen_height = none ∧ cs.upgrade_commitment_pfx = []
          ∧ cs.upgrade_key = [] ∧ cs.latest_height.revision_height ≠ 0))
    ∧ (∀ h : Header, Header.codecSafe h →
        headerTryFromRaw (headerIntoRaw h) = .ok h)
    ∧ headerTryFromRaw (headerIntoRaw
        (mkHeader 1 100 [some (Signature.ED25519 (List.replicate 64 7))]))
      = .panicked
    ∧ (∀ h : Header, Header.codecSafe h →
        consensusStateTryFromRaw headerTryFromRaw
            (consensusStateIntoRaw (ConsensusState.new none h))
          = .ok (ConsensusState.new none h))
    ∧ (∀ h : Header, Header.codecSafe h →
        consensusStateTryFromRaw headerTryFromRaw
            (consensusStateIntoRaw (ConsensusState.new (some []) h))
          = .ok (ConsensusState.new none h)
        ∧ ConsensusState.new none h ≠ ConsensusState.new (some []) h)
    ∧ (∀ (parseClientId : String → Option String) (m : Misbehaviour),
        parseClientId m.client_id = some m.client_id →
        Header.codecSafe m.header1 → Header.codecSafe m.header2 →
        misbehaviourTryFromRaw parseClientId (misbehaviourIntoRaw m) = .ok m)
    ∧ (∀ a b : ClientState, a = b →
        clientStateIntoRaw a = clientStateIntoRaw b)
    ∧ (∀ a b : Header, a = b → headerIntoRaw a = headerIntoRaw b)
    ∧ (∀ a b : ConsensusState, a = b →
        consensusStateIntoRaw a = consensusStateIntoRaw b)
    ∧ (∀ a b : Misbehaviour, a = b →
        misbehaviourIntoRaw a = misbehaviourIntoRaw b) := by
  refine ⟨clientStateTryFromRaw_intoRaw_iff, headerTryFromRaw_roundtrip,
    by rfl, ?_, ?_, ?_,
    fun a b hab => by rw [hab], fun a b hab => by rw [hab],
    fun a b hab => by rw [hab], fun a b hab => by rw [hab]⟩
  · intro h hs
    unfold consensusStateIntoRaw consensusStateTryFromRaw
    simp only [ConsensusState.new, decodeBpsList, List.length_nil,
      headerTryFromRaw_roundtrip h hs]
  · intro h hs
    constructor
    · unfold consensusStateIntoRaw consensusStateTryFromRaw
      simp only [ConsensusState.new, List.map_nil, decodeBpsList,
        List.length_nil, headerTryFromRaw_roundtrip h hs]
    · intro heq
      have hbps := congrArg ConsensusState.current_bps heq
      simp [ConsensusState.new] at hbps
  · intro parseClientId m hpid hs1 hs2
    obtain ⟨cid, hh1, hh2⟩ := m
    unfold misbehaviourIntoRaw misbehaviourTryFromRaw
    simp only [hpid, headerTryFromRaw_roundtrip hh1 hs1,
      headerTryFromRaw_roundtrip hh2 hs2]

/-- C3 witness: the codec round-trip theorem applied at concrete inputs —
a plain client state, a signature-free header, a consensus state with
`current_bps = Some([])` (normalized to `None`), and a misbehaviour whose
client id parses via `some`. -/
theorem C3_witness :
    clientStateTryFromRaw (clientStateIntoRaw
        (ClientState.new_without_validation ⟨3600, 0⟩ ⟨0, 5⟩ 42))
      = .ok (ClientState.new_without_validation ⟨3600, 0⟩ ⟨0, 5⟩ 42)
    ∧ headerTryFromRaw (headerIntoRaw (mkHeader 1 100 []))
      = .ok (mkHeader 1 100 [])
    ∧ consensusStateTryFromRaw headerTryFromRaw
        (consensusStateIntoRaw (ConsensusState.new (some []) (mkHeader 1 100 [])))
      = .ok (ConsensusState.new none (mkHeader 1 100 []))
    ∧ misbehaviourTryFromRaw some
        (misbehaviourIntoRaw ⟨"test-client", mkHeader 1 100 [], mkHeader 2 200 []⟩)
      = .ok ⟨"test-client", mkHeader 1 100 [], mkHeader 2 200 []⟩ := by
  have hcs1 : Header.codecSafe (mkHeader 1 100 []) := by
    unfold Header.codecSafe mkHeader hashZ hashE hashN
    refine ⟨by decide, by decide, by decide, by decide, by decide, by decide,
      by decide, by decide, by decide, by decide, by decide, rfl,
      by simp, by decide, by decide⟩
  have hcs2 : Header.codecSafe (mkHeader 2 200 []) := by
    unfold Header.codecSafe mkHeader hashZ hashE hashN
    refine ⟨by decide, by decide, by decide, by decide, by decide, by decide,
      by decide, by decide, by decide, by decide, by decide, rfl,
      by simp, by decide, by decide⟩
  refine ⟨?_, ?_, ?_, ?_⟩
  · exact (C3_codec_roundtrip.1 _).mpr ⟨rfl, rfl, rfl, by decide⟩
  · exact C3_codec_roundtrip.2.1 _ hcs1
  · exact (C3_codec_roundtrip.2.2.2.2.1 _ hcs1).1
  · exact C3_codec_roundtrip.2.2.2.2.2.1 some _ rfl hcs1 hcs2

/-- a raw consensus state carrying one `current_bps` entry whose borsh
bytes begin with a well-formed empty account string. -/
def rawBadConsensus : RawConsensusState :=
  ⟨[⟨[0, 0, 0, 0]⟩], none⟩

/-- C4: decoding a ConsensusState message with any `current_bps` entry
panics instead of returning a typed error: the entry decode reaches the
`BorshDeserialize for PublicKey` impl, which is `todo!()`
(`types/src/v1/near_types/signature.rs` lines 80-92), contradicting the
claim (and the error variant `BorshDeserializeError` the surrounding code
maps to). Shown here at the concrete input `rawBadConsensus`. -/
theorem C4_consensus_decode_panics :
    consensusStateTryFromRaw (fun _ => .err .missingHeader) rawBadConsensus
      = .panicked := rfl

/-- C5: for both `verify_membership` and `verify_non_membership`, a proof
whose borsh decoding is the empty list yields an error
(`EmptyMerkleProof`), and a successful call requires the sha256 of the
first proof node's bytes to be a member of the borsh-decoded
`Vec<CryptoHash>` of chunk state roots carried by the commitment root. -/
theorem C5_proof_root_membership {Node : Type}
    (sha256f : List Nat → CryptoHash)
    (decodeNode : List Nat → Option Node)
    (verifyStateProof : List Nat → List Node → List Nat → CryptoHash →
      Except String Unit)
    (verifyNotInState : List Nat → List Node → CryptoHash →
      Except String Unit)
    (pfx pathBytes proofBytes rootBytes value : List Nat) :
    (tryFromSliceVec readVecU8 proofBytes = some [] →
      verify_membership sha256f decodeNode verifyStateProof pfx pathBytes
          proofBytes rootBytes value = .error .emptyMerkleProof
      ∧ verify_non_membership sha256f decodeNode verifyNotInState pfx
          pathBytes proofBytes rootBytes = .error .emptyMerkleProof)
    ∧ (verify_membership sha256f decodeNode verifyStateProof pfx pathBytes
          proofBytes rootBytes value = .ok () →
        ∃ p0 rest roots,
          tryFromSliceVec readVecU8 proofBytes = some (p0 :: rest)
          ∧ tryFromSliceVec readCryptoHash rootBytes = some roots
          ∧ sha256f p0 ∈ roots)
    ∧ (verify_non_membership sha256f decodeNode verifyNotInState pfx
          pathBytes proofBytes rootBytes = .ok () →
        ∃ p0 rest roots,
          tryFromSliceVec readVecU8 proofBytes = some (p0 :: rest)
          ∧ tryFromSliceVec readCryptoHash rootBytes = some roots
          ∧ sha256f p0 ∈ roots) := by
  refine ⟨fun hdec => ⟨?_, ?_⟩, fun hok => ?_, fun hok => ?_⟩
  · simp only [verify_membership, hdec]
  · simp only [verify_non_membership, hdec]
  · unfold verify_membership at hok
    cases hp : tryFromSliceVec readVecU8 proofBytes with
    | none => rw [hp] at hok; simp at hok
    | some proofs =>
      rw [hp] at hok
      cases proofs with
      | nil => simp at hok
      | cons p0 rest =>
        simp only [] at hok
        cases hr : tryFromSliceVec readCryptoHash rootBytes with
        | none => rw [hr] at hok; simp at hok
        | some roots =>
          rw [hr] at hok
          simp only [] at hok
          by_cases hmem : sha256f p0 ∈ roots
          · exact ⟨p0, rest, roots, rfl, rfl, hmem⟩
          · rw [if_pos hmem] at hok
            simp at hok
  · unfold verify_non_membership at hok
    cases hp : tryFromSliceVec readVecU8 proofBytes with
    | none => rw [hp] at hok; simp at hok
    | some proofs =>
      rw [hp] at hok
      cases proofs with
      | nil => simp at hok
      | cons p0 rest =>
        simp only [] at hok
        cases hr : tryFromSliceVec readCryptoHash rootBytes with
        | none => rw [hr] at hok; simp at hok
        | some roots =>
          rw [hr] at hok
          simp only [] at hok
          by_cases hmem : sha256f p0 ∈ roots
          · exact ⟨p0, rest, roots, rfl, rfl, hmem⟩
          · rw [if_pos hmem] at hok
            simp at hok

/-- C5 witness: a proof encoding the empty list (`[0,0,0,0]`) errors with
`EmptyMerkleProof`; and on a successful membership run (single proof node
`[1]`, commitment root encoding the one-element chunk-root list matching
`shaZ`) the theorem yields the chunk-root membership. -/
theorem C5_witness :
    @verify_membership Unit shaZ (fun _ => some ())
        (fun _ _ _ _ => .ok ()) [] [] [0, 0, 0, 0] [] []
      = .error .emptyMerkleProof
    ∧ ∃ p0 rest roots,
        tryFromSliceVec readVecU8 [1, 0, 0, 0, 1, 0, 0, 0, 1]
          = some (p0 :: rest)
        ∧ tryFromSliceVec readCryptoHash ([1, 0, 0, 0] ++ List.replicate 32 0)
          = some roots
        ∧ shaZ p0 ∈ roots := by
  constructor
  · exact ((@C5_proof_root_membership Unit shaZ (fun _ => some ())
      (fun _ _ _ _ => .ok ()) (fun _ _ _ => .ok ()) [] [] [0, 0, 0, 0] []
      []).1 (by rfl)).1
  · exact (@C5_proof_root_membership Unit shaZ (fun _ => some ())
      (fun _ _ _ _ => .ok ()) (fun _ _ _ => .ok ()) [] []
      [1, 0, 0, 0, 1, 0, 0, 0, 1] ([1, 0, 0, 0] ++ List.replicate 32 0)
      []).2.1 (by rfl)

end Near
